import Mathlib

/-!
Verification development for the dirty-debug crate (src/lib.rs).

Strings are modelled as lists of characters.  The destination resolver
(the pure parsing part of dirty_log_message) is embedded as a pure
function.  The process-wide handle caches (the DIRTY_FILES and DIRTY_TCP
maps) are embedded as explicit state: an association list from key to
handle, together with a script of outcomes for the successive open and
connect calls and for the write and flush calls on each handle, so that
I/O failures are explicit values.  Panics of the top-level entry point
are embedded as an outcome value carrying the panic message.
-/

set_option autoImplicit false

deriving instance DecidableEq for Except

/-- Convert a Lean string literal to the character-list representation used
throughout this development. -/
def toL (s : String) : List Char := s.toList

/-- Rust str::strip_prefix: removes the given leading pattern if present,
returning the remainder, and returns none otherwise. -/
def stripPre : List Char → List Char → Option (List Char)
  | [], s => some s
  | _ :: _, [] => none
  | p :: ps, x :: xs => if x = p then stripPre ps xs else none

/-- Rust str::strip_suffix for a single character: removes the given final
character if present and returns none otherwise. -/
def stripSuf (c : Char) (s : List Char) : Option (List Char) :=
  match s.reverse with
  | [] => none
  | x :: rest => if x = c then some rest.reverse else none

/-- Rust str::rsplit_once: splits at the last occurrence of the separator,
returning the parts before and after it. -/
def rsplitOnce (c : Char) : List Char → Option (List Char × List Char)
  | [] => none
  | x :: xs =>
    match rsplitOnce c xs with
    | some (a, b) => some (x :: a, b)
    | none => if x = c then some ([], xs) else none

/-- The error kinds of Rust core ParseIntError that can arise when parsing
an unsigned 16-bit integer. -/
inductive ParseIntError where
  | empty
  | invalidDigit
  | posOverflow
deriving DecidableEq

/-- Digit-accumulation loop of u16::from_str: left to right, failing at the
first non-digit and at the first accumulated value exceeding 65535. -/
def parseU16Digits : List Char → Nat → Except ParseIntError Nat
  | [], acc => .ok acc
  | c :: rest, acc =>
    if c.isDigit then
      let acc2 := acc * 10 + (c.toNat - 48)
      if 65535 < acc2 then .error .posOverflow else parseU16Digits rest acc2
    else .error .invalidDigit

/-- Rust u16::from_str: empty input is Empty, a lone sign is InvalidDigit,
an optional leading plus sign is allowed, then the digit loop runs. -/
def parseU16 : List Char → Except ParseIntError Nat
  | [] => .error .empty
  | ['+'] => .error .invalidDigit
  | '+' :: rest => parseU16Digits rest 0
  | s => parseU16Digits s 0

/-- A resolved destination: a TCP target (hostname and port) or a file
target (path), as produced by the parsing part of dirty_log_message. -/
inductive Target where
  | tcp (host : List Char) (port : Nat)
  | file (path : List Char)
deriving DecidableEq

/-- The two ways destination resolution can fail for a tcp:// uri: the
authority has no colon (the first expect in dirty_log_message), or the part
after the last colon is not a valid u16 (the second expect). -/
inductive ResolveErr where
  | noColon
  | badPort (e : ParseIntError)
deriving DecidableEq

def tcpScheme : List Char := toL "tcp://"

def fileScheme : List Char := toL "file://"

/-- The bracket handling of dirty_log_message line 148-149:
hostname.strip_prefix of an opening bracket, and_then strip_suffix of a
closing bracket, unwrap_or the original hostname. -/
def stripBrackets (hostname : List Char) : List Char :=
  match (stripPre ['['] hostname).bind (stripSuf ']') with
  | some h => h
  | none => hostname

/-- The pure resolution logic of dirty_log_message (lines 144-156): strip
the tcp scheme; on success split the authority at the last colon, strip
brackets from the hostname, parse the port; otherwise strip an optional
file scheme and classify as a file target. -/
def resolveDestination (uri : List Char) : Except ResolveErr Target :=
  match stripPre tcpScheme uri with
  | some authority =>
    match rsplitOnce ':' authority with
    | none => .error .noColon
    | some (hostname, portStr) =>
      let hostname2 := stripBrackets hostname
      match parseU16 portStr with
      | .error e => .error (.badPort e)
      | .ok port => .ok (.tcp hostname2 port)
  | none => .ok (.file ((stripPre fileScheme uri).getD uri))

/-- An I/O error is modelled by its description string. -/
abbrev IoError := List Char

/-- A cached handle (an open File or TcpStream viewed through the Write
trait).  hid identifies the underlying open call that produced the handle,
written records the bytes handed to the handle so far, flushedLen how many
of them have been flushed to the OS, and script the outcomes of the
upcoming write and flush calls (an exhausted script means success). -/
structure WriterState where
  hid : Nat
  written : List Char
  flushedLen : Nat
  script : List (Option IoError)
deriving DecidableEq

/-- One Write::write_all / write_fmt call on a handle: consult the script;
on success the bytes are appended, on failure nothing changes. -/
def wWrite (bytes : List Char) (w : WriterState) : Except IoError Unit × WriterState :=
  match w.script with
  | some e :: rest => (.error e, { w with script := rest })
  | none :: rest => (.ok (), { w with written := w.written ++ bytes, script := rest })
  | [] => (.ok (), { w with written := w.written ++ bytes })

/-- One Write::flush call on a handle: consult the script; on success all
written bytes count as flushed, on failure nothing changes. -/
def wFlush (w : WriterState) : Except IoError Unit × WriterState :=
  match w.script with
  | some e :: rest => (.error e, { w with script := rest })
  | none :: rest => (.ok (), { w with flushedLen := w.written.length, script := rest })
  | [] => (.ok (), { w with flushedLen := w.written.length })

/-- dirty_log_str_writer (lines 99-106): write the formatted message, then
a newline, then flush, propagating the first failure. -/
def dirty_log_str_writer (msg : List Char) (w : WriterState) :
    Except IoError Unit × WriterState :=
  match wWrite msg w with
  | (.error e, w1) => (.error e, w1)
  | (.ok _, w1) =>
    match wWrite ['\n'] w1 with
    | (.error e, w2) => (.error e, w2)
    | (.ok _, w2) => wFlush w2

/-- One of the two process-wide caches (DIRTY_FILES, keyed by path, or
DIRTY_TCP, keyed by hostname and port): an association list from key to
cached handle, a script assigning to the n-th open/connect call its outcome
(an error, or the write/flush script of the fresh handle), and the number
of open/connect calls made so far. -/
structure CacheState (κ : Type) where
  cache : List (κ × WriterState)
  opens : Nat → Except IoError (List (Option IoError))
  openCount : Nat

/-- Lookup in an association list (DashMap get). -/
def lookupEntry {κ α : Type} [DecidableEq κ] : List (κ × α) → κ → Option α
  | [], _ => none
  | (k, v) :: rest, key => if k = key then some v else lookupEntry rest key

/-- Update the value stored at a key of an association list (mutation of a
DashMap entry in place). -/
def updateEntry {κ α : Type} [DecidableEq κ] : List (κ × α) → κ → α → List (κ × α)
  | [], _, _ => []
  | (k, v) :: rest, key, v2 =>
    if k = key then (k, v2) :: rest else (k, v) :: updateEntry rest key v2

/-- The common body of dirty_log_str_file and dirty_log_str_tcp (lines
109-120 and 122-138): DashMap entry(key).or_try_insert_with(open), then
dirty_log_str_writer on the cached handle.  If the key is present the
existing handle is used and no open occurs.  If it is absent, one open is
attempted: on failure the error is returned and nothing is inserted; on
success a fresh handle is inserted and written to. -/
def cacheLogStr {κ : Type} [DecidableEq κ] (key : κ) (msg : List Char)
    (s : CacheState κ) : Except IoError Unit × CacheState κ :=
  match lookupEntry s.cache key with
  | some w =>
    let r := dirty_log_str_writer msg w
    (r.1, { s with cache := updateEntry s.cache key r.2 })
  | none =>
    match s.opens s.openCount with
    | .error e => (.error e, { s with openCount := s.openCount + 1 })
    | .ok scr =>
      let w0 : WriterState :=
        { hid := s.openCount, written := [], flushedLen := 0, script := scr }
      let r := dirty_log_str_writer msg w0
      (r.1, { s with cache := (key, r.2) :: s.cache, openCount := s.openCount + 1 })

/-- dirty_log_str_file (lines 109-120). -/
def dirty_log_str_file (filepath : List Char) (msg : List Char)
    (s : CacheState (List Char)) : Except IoError Unit × CacheState (List Char) :=
  cacheLogStr filepath msg s

/-- dirty_log_str_tcp (lines 122-138). -/
def dirty_log_str_tcp (hostname : List Char) (port : Nat) (msg : List Char)
    (s : CacheState (List Char × Nat)) : Except IoError Unit × CacheState (List Char × Nat) :=
  cacheLogStr (hostname, port) msg s

/-- The process state: the two static caches DIRTY_FILES and DIRTY_TCP. -/
structure ProcState where
  dirtyFiles : CacheState (List Char)
  dirtyTcp : CacheState (List Char × Nat)

/-- The observable outcome of one dirty_log_message call: normal return, or
one of its three panics (the two resolution expects, and the panic that
wraps an I/O error together with the uri). -/
inductive LogOutcome where
  | ok
  | panicInvalidTcpUri
  | panicInvalidPort (e : ParseIntError)
  | panicIo (uri : List Char) (e : IoError)
deriving DecidableEq

/-- Rendering of a ParseIntError by the Debug trait, as it appears inside
the expect message of the port parse. -/
def renderPIE : ParseIntError → List Char
  | .empty => toL "ParseIntError \x7b kind: Empty \x7d"
  | .invalidDigit => toL "ParseIntError \x7b kind: InvalidDigit \x7d"
  | .posOverflow => toL "ParseIntError \x7b kind: PosOverflow \x7d"

/-- The panic message of each abnormal outcome: the two expects use their
fixed message (the port expect appends the Debug form of the parse error),
and the final panic formats the uri and the I/O error description. -/
def panicText : LogOutcome → Option (List Char)
  | .ok => none
  | .panicInvalidTcpUri => some (toL "invalid tcp uri")
  | .panicInvalidPort e => some (toL "invalid port number: " ++ renderPIE e)
  | .panicIo uri e =>
    some (toL "failed to log to \x22" ++ uri ++ toL "\x22: " ++ e)

/-- dirty_log_message (lines 143-162): resolve the uri (panicking on the
two expects), dispatch to the tcp or file cache, and panic with the uri and
the error description if the dispatched call fails. -/
def dirty_log_message (uri : List Char) (msg : List Char) (s : ProcState) :
    LogOutcome × ProcState :=
  match resolveDestination uri with
  | .error .noColon => (.panicInvalidTcpUri, s)
  | .error (.badPort e) => (.panicInvalidPort e, s)
  | .ok (.tcp host port) =>
    let r := dirty_log_str_tcp host port msg s.dirtyTcp
    match r.1 with
    | .ok _ => (.ok, { s with dirtyTcp := r.2 })
    | .error e => (.panicIo uri e, { s with dirtyTcp := r.2 })
  | .ok (.file path) =>
    let r := dirty_log_str_file path msg s.dirtyFiles
    match r.1 with
    | .ok _ => (.ok, { s with dirtyFiles := r.2 })
    | .error e => (.panicIo uri e, { s with dirtyFiles := r.2 })

/-- Boolean test that the first list occurs at the start of the second. -/
def startsSeq : List Char → List Char → Bool
  | [], _ => true
  | _ :: _, [] => false
  | a :: as, b :: bs => a = b && startsSeq as bs

/-- Boolean test that the first list occurs contiguously somewhere inside
the second. -/
def containsSeq (needle : List Char) : List Char → Bool
  | [] => needle.isEmpty
  | x :: rest => startsSeq needle (x :: rest) || containsSeq needle rest

/-- An open/connect script that always succeeds and yields handles whose
writes and flushes always succeed. -/
def okOpens : Nat → Except IoError (List (Option IoError)) := fun _ => .ok []

/-- An open/connect script that always fails. -/
def failOpens : Nat → Except IoError (List (Option IoError)) :=
  fun _ => .error (toL "boom")

/-- A fresh process state with empty caches and always-succeeding I/O. -/
def okState : ProcState :=
  { dirtyFiles := { cache := [], opens := okOpens, openCount := 0 },
    dirtyTcp := { cache := [], opens := okOpens, openCount := 0 } }

/-- A fresh file cache whose open calls always fail. -/
def fileFailCache : CacheState (List Char) :=
  { cache := [], opens := failOpens, openCount := 0 }

/-- A fresh tcp cache whose connect calls always fail. -/
def tcpFailCache : CacheState (List Char × Nat) :=
  { cache := [], opens := failOpens, openCount := 0 }

/-- The first failure among the three writer operations (write, write
newline, flush) scripted at the head of a handle script; none when the
first three entries (or all of a shorter script) are successes. -/
def firstFailure : List (Option IoError) → Option IoError
  | .some e :: _ => some e
  | .none :: .some e :: _ => some e
  | .none :: .none :: .some e :: _ => some e
  | _ => none

/-- A handle as it looks after one successful record was written. -/
def wSeeded : WriterState := ⟨0, toL "x\n", 2, []⟩

/-- A process state whose file cache already holds a handle for one key. -/
def seededState : ProcState :=
  { dirtyFiles := { cache := [(toL "/k", wSeeded)], opens := okOpens, openCount := 1 },
    dirtyTcp := { cache := [], opens := okOpens, openCount := 0 } }

theorem stripPre_append (p rest : List Char) : stripPre p (p ++ rest) = some rest := by
  induction p with
  | nil => rfl
  | cons x xs ih => simp [stripPre, ih]

theorem stripPre_eq_some {p s t : List Char} : stripPre p s = some t ↔ s = p ++ t := by
  induction p generalizing s with
  | nil =>
    simp only [stripPre, List.nil_append]
    exact Option.some_inj
  | cons x xs ih =>
    cases s with
    | nil => simp [stripPre]
    | cons y ys =>
      by_cases hxy : y = x
      · subst hxy
        simp [stripPre, ih]
      · simp [stripPre, hxy, Ne.symm hxy]

theorem stripPre_eq_none {p s : List Char} : stripPre p s = none ↔ ∀ t, s ≠ p ++ t := by
  constructor
  · intro h t hst
    rw [hst, stripPre_append] at h
    exact Option.some_ne_none t h
  · intro h
    cases hs : stripPre p s with
    | none => rfl
    | some t => exact absurd (stripPre_eq_some.mp hs) (h t)

theorem stripSuf_eq_some {c : Char} {s t : List Char} : stripSuf c s = some t ↔ s = t ++ [c] := by
  constructor
  · intro h
    unfold stripSuf at h
    cases hr : s.reverse with
    | nil => rw [hr] at h; cases h
    | cons x rest =>
      rw [hr] at h
      have h2 : (if x = c then some rest.reverse else none) = some t := h
      by_cases hx : x = c
      · rw [if_pos hx] at h2
        have ht : rest.reverse = t := Option.some_inj.mp h2
        have hs : s = rest.reverse ++ [x] := by
          conv_lhs => rw [← s.reverse_reverse, hr]
          simp
        rw [hs, ht, hx]
      · rw [if_neg hx] at h2; cases h2
  · intro h
    subst h
    unfold stripSuf
    simp

theorem rsplitOnce_none_of_not_mem {c : Char} {s : List Char} (h : c ∉ s) :
    rsplitOnce c s = none := by
  induction s with
  | nil => rfl
  | cons x xs ih =>
    have hx : ¬x = c := fun hh => h (by rw [hh]; exact List.mem_cons_self _ _)
    have hxs : c ∉ xs := fun hh => h (List.mem_cons_of_mem _ hh)
    unfold rsplitOnce
    rw [ih hxs, if_neg hx]

theorem rsplitOnce_ne_none_of_mem {c : Char} {s : List Char} (h : c ∈ s) :
    rsplitOnce c s ≠ none := by
  induction s with
  | nil => cases h
  | cons x xs ih =>
    unfold rsplitOnce
    cases hr : rsplitOnce c xs with
    | some p =>
      obtain ⟨a, b⟩ := p
      simp
    | none =>
      have hcx : c = x := by
        rcases List.mem_cons.mp h with h1 | h2
        · exact h1
        · exact absurd hr (ih h2)
      rw [if_pos hcx.symm]
      simp

theorem rsplitOnce_eq_none {c : Char} {s : List Char} : rsplitOnce c s = none ↔ c ∉ s :=
  ⟨fun h hm => rsplitOnce_ne_none_of_mem hm h, rsplitOnce_none_of_not_mem⟩

theorem rsplitOnce_append_last {c : Char} {tail : List Char} (pre : List Char)
    (h : c ∉ tail) : rsplitOnce c (pre ++ c :: tail) = some (pre, tail) := by
  induction pre with
  | nil =>
    show rsplitOnce c (c :: tail) = some ([], tail)
    unfold rsplitOnce
    rw [rsplitOnce_none_of_not_mem h]
    simp
  | cons x xs ih =>
    show rsplitOnce c (x :: (xs ++ c :: tail)) = some (x :: xs, tail)
    unfold rsplitOnce
    rw [ih]

theorem stripBrackets_wrap (inner : List Char) :
    stripBrackets ('[' :: (inner ++ [']'])) = inner := by
  unfold stripBrackets
  have h1 : stripPre ['['] ('[' :: (inner ++ [']'])) = some (inner ++ [']']) := by
    simp [stripPre]
  have h2 : stripSuf ']' (inner ++ [']']) = some inner := stripSuf_eq_some.mpr rfl
  rw [h1]
  simp [h2]

theorem stripBrackets_eq_self {host : List Char}
    (h : (stripPre ['['] host).bind (stripSuf ']') = none) :
    stripBrackets host = host := by
  unfold stripBrackets
  rw [h]

theorem noBrackets_iff {host : List Char} :
    (stripPre ['['] host).bind (stripSuf ']') = none ↔
      ∀ inner, host ≠ '[' :: (inner ++ [']']) := by
  constructor
  · intro h inner heq
    have h1 : stripPre ['['] host = some (inner ++ [']']) := by
      rw [heq]; simp [stripPre]
    rw [h1, Option.some_bind, stripSuf_eq_some.mpr rfl] at h
    cases h
  · intro h
    cases h1 : stripPre ['['] host with
    | none => rfl
    | some t =>
      rw [Option.some_bind]
      cases h2 : stripSuf ']' t with
      | none => rfl
      | some u =>
        have ht : t = u ++ [']'] := stripSuf_eq_some.mp h2
        have hhost : host = '[' :: (u ++ [']']) := by
          have := stripPre_eq_some.mp h1
          rw [this, ht]; rfl
        exact absurd hhost (h u)

theorem dirty_log_str_writer_hid (msg : List Char) (w : WriterState) :
    ((dirty_log_str_writer msg w).2).hid = w.hid := by
  obtain ⟨hid, written, fl, scr⟩ := w
  rcases scr with _ | ⟨o1, scr⟩
  · simp [dirty_log_str_writer, wWrite, wFlush]
  rcases o1 with _ | e1
  · rcases scr with _ | ⟨o2, scr⟩
    · simp [dirty_log_str_writer, wWrite, wFlush]
    rcases o2 with _ | e2
    · rcases scr with _ | ⟨o3, scr⟩
      · simp [dirty_log_str_writer, wWrite, wFlush]
      rcases o3 with _ | e3
      · simp [dirty_log_str_writer, wWrite, wFlush]
      · simp [dirty_log_str_writer, wWrite, wFlush]
    · simp [dirty_log_str_writer, wWrite, wFlush]
  · simp [dirty_log_str_writer, wWrite, wFlush]

theorem dirty_log_str_writer_written (msg : List Char) (w : WriterState) :
    ∃ t, ((dirty_log_str_writer msg w).2).written = w.written ++ t := by
  obtain ⟨hid, written, fl, scr⟩ := w
  rcases scr with _ | ⟨o1, scr⟩
  · exact ⟨msg ++ ['\n'], by simp [dirty_log_str_writer, wWrite, wFlush]⟩
  rcases o1 with _ | e1
  · rcases scr with _ | ⟨o2, scr⟩
    · exact ⟨msg ++ ['\n'], by simp [dirty_log_str_writer, wWrite, wFlush]⟩
    rcases o2 with _ | e2
    · rcases scr with _ | ⟨o3, scr⟩
      · exact ⟨msg ++ ['\n'], by simp [dirty_log_str_writer, wWrite, wFlush]⟩
      rcases o3 with _ | e3
      · exact ⟨msg ++ ['\n'], by simp [dirty_log_str_writer, wWrite, wFlush]⟩
      · exact ⟨msg ++ ['\n'], by simp [dirty_log_str_writer, wWrite, wFlush]⟩
    · exact ⟨msg, by simp [dirty_log_str_writer, wWrite, wFlush]⟩
  · exact ⟨[], by simp [dirty_log_str_writer, wWrite, wFlush]⟩

theorem lookup_update_self {κ α : Type} [DecidableEq κ] {l : List (κ × α)} {k : κ} {w : α}
    (v : α) (h : lookupEntry l k = some w) :
    lookupEntry (updateEntry l k v) k = some v := by
  induction l with
  | nil => cases h
  | cons p rest ih =>
    obtain ⟨pk, pv⟩ := p
    by_cases hpk : pk = k
    · simp [updateEntry, lookupEntry, hpk]
    · simp only [lookupEntry, if_neg hpk] at h
      simp [updateEntry, lookupEntry, hpk, ih h]

theorem lookup_update_ne {κ α : Type} [DecidableEq κ] {l : List (κ × α)} {k key : κ}
    (v : α) (h : key ≠ k) :
    lookupEntry (updateEntry l k v) key = lookupEntry l key := by
  induction l with
  | nil => rfl
  | cons p rest ih =>
    obtain ⟨pk, pv⟩ := p
    by_cases hpk : pk = k
    · subst hpk
      simp [updateEntry, lookupEntry, Ne.symm h]
    · simp [updateEntry, lookupEntry, hpk, ih]

theorem cacheLog_present {κ : Type} [DecidableEq κ] {key : κ} {msg : List Char}
    {s : CacheState κ} {w : WriterState} (h : lookupEntry s.cache key = some w) :
    cacheLogStr key msg s =
      ((dirty_log_str_writer msg w).1,
        { s with cache := updateEntry s.cache key (dirty_log_str_writer msg w).2 }) := by
  unfold cacheLogStr
  rw [h]

theorem cacheLog_absent_fail {κ : Type} [DecidableEq κ] {key : κ} {msg : List Char}
    {s : CacheState κ} {e : IoError} (h : lookupEntry s.cache key = none)
    (ho : s.opens s.openCount = .error e) :
    cacheLogStr key msg s = (.error e, { s with openCount := s.openCount + 1 }) := by
  unfold cacheLogStr
  rw [h, ho]

theorem cacheLog_absent_ok {κ : Type} [DecidableEq κ] {key : κ} {msg : List Char}
    {s : CacheState κ} {scr : List (Option IoError)} (h : lookupEntry s.cache key = none)
    (ho : s.opens s.openCount = .ok scr) :
    cacheLogStr key msg s =
      ((dirty_log_str_writer msg ⟨s.openCount, [], 0, scr⟩).1,
        { s with
          cache := (key, (dirty_log_str_writer msg ⟨s.openCount, [], 0, scr⟩).2) :: s.cache,
          openCount := s.openCount + 1 }) := by
  unfold cacheLogStr
  rw [h, ho]

theorem cacheLog_preserves {κ : Type} [DecidableEq κ] {key key2 : κ} {msg : List Char}
    {s : CacheState κ} {w : WriterState} (h : lookupEntry s.cache key = some w) :
    ∃ w2, lookupEntry ((cacheLogStr key2 msg s).2).cache key = some w2 ∧
      w2.hid = w.hid ∧ ∃ t, w2.written = w.written ++ t := by
  cases h2 : lookupEntry s.cache key2 with
  | some wp =>
    rw [cacheLog_present h2]
    by_cases hk : key = key2
    · subst hk
      have hw : w = wp := by
        rw [h] at h2; exact Option.some_inj.mp h2
      subst hw
      refine ⟨(dirty_log_str_writer msg w).2, lookup_update_self _ h, ?_, ?_⟩
      · exact dirty_log_str_writer_hid msg w
      · exact dirty_log_str_writer_written msg w
    · rw [lookup_update_ne _ hk]
      exact ⟨w, h, rfl, [], by simp⟩
  | none =>
    cases ho : s.opens s.openCount with
    | error e =>
      rw [cacheLog_absent_fail h2 ho]
      exact ⟨w, h, rfl, [], by simp⟩
    | ok scr =>
      rw [cacheLog_absent_ok h2 ho]
      have hk : key2 ≠ key := by
        intro hkk
        rw [hkk, h] at h2
        cases h2
      simp only [lookupEntry, if_neg hk]
      exact ⟨w, h, rfl, [], by simp⟩

theorem dirty_log_str_file_eq (p m : List Char) (s : CacheState (List Char)) :
    dirty_log_str_file p m s = cacheLogStr p m s := rfl

theorem dirty_log_str_tcp_eq (h : List Char) (p : Nat) (m : List Char)
    (s : CacheState (List Char × Nat)) :
    dirty_log_str_tcp h p m s = cacheLogStr (h, p) m s := rfl

theorem resolve_tcp_split (host portStr : List Char) (hc : ':' ∉ portStr) :
    resolveDestination (tcpScheme ++ (host ++ ':' :: portStr)) =
      match parseU16 portStr with
      | .error e => .error (.badPort e)
      | .ok port => .ok (.tcp (stripBrackets host) port) := by
  unfold resolveDestination
  simp [stripPre_append, rsplitOnce_append_last host hc]

theorem dlm_dirtyFiles (uri msg : List Char) (s : ProcState) :
    ((dirty_log_message uri msg s).2).dirtyFiles = s.dirtyFiles ∨
      ∃ path, resolveDestination uri = .ok (.file path) ∧
        ((dirty_log_message uri msg s).2).dirtyFiles =
          (dirty_log_str_file path msg s.dirtyFiles).2 := by
  rcases hres : resolveDestination uri with e | t
  · cases e <;> simp [dirty_log_message, hres]
  · cases t with
    | tcp host port =>
      left
      rcases hr : (dirty_log_str_tcp host port msg s.dirtyTcp).1 with e2 | u <;>
        simp [dirty_log_message, hres, hr]
    | file path =>
      right
      refine ⟨path, rfl, ?_⟩
      rcases hr : (dirty_log_str_file path msg s.dirtyFiles).1 with e2 | u <;>
        simp [dirty_log_message, hres, hr]

theorem dlm_dirtyTcp (uri msg : List Char) (s : ProcState) :
    ((dirty_log_message uri msg s).2).dirtyTcp = s.dirtyTcp ∨
      ∃ host port, resolveDestination uri = .ok (.tcp host port) ∧
        ((dirty_log_message uri msg s).2).dirtyTcp =
          (dirty_log_str_tcp host port msg s.dirtyTcp).2 := by
  rcases hres : resolveDestination uri with e | t
  · cases e <;> simp [dirty_log_message, hres]
  · cases t with
    | tcp host port =>
      right
      refine ⟨host, port, rfl, ?_⟩
      rcases hr : (dirty_log_str_tcp host port msg s.dirtyTcp).1 with e2 | u <;>
        simp [dirty_log_message, hres, hr]
    | file path =>
      left
      rcases hr : (dirty_log_str_file path msg s.dirtyFiles).1 with e2 | u <;>
        simp [dirty_log_message, hres, hr]

theorem cacheLog_open_fail_spec {κ : Type} [DecidableEq κ] {key : κ} {msg : List Char}
    {s : CacheState κ} {e : IoError} (h : lookupEntry s.cache key = none)
    (ho : s.opens s.openCount = .error e) :
    (cacheLogStr key msg s).1 = .error e ∧
    ((cacheLogStr key msg s).2).cache = s.cache ∧
    lookupEntry ((cacheLogStr key msg s).2).cache key = none ∧
    ∀ msg2, ((cacheLogStr key msg2 (cacheLogStr key msg s).2).2).openCount = s.openCount + 2 := by
  rw [cacheLog_absent_fail h ho]
  refine ⟨rfl, rfl, h, ?_⟩
  intro msg2
  cases ho2 : s.opens (s.openCount + 1) with
  | error e2 =>
    rw [cacheLog_absent_fail (s := { s with openCount := s.openCount + 1 }) h ho2]
  | ok scr =>
    rw [cacheLog_absent_ok (s := { s with openCount := s.openCount + 1 }) h ho2]

theorem startsSeq_iff {needle hay : List Char} :
    startsSeq needle hay = true ↔ ∃ b, hay = needle ++ b := by
  induction needle generalizing hay with
  | nil => simp [startsSeq]
  | cons a as ih =>
    cases hay with
    | nil => simp [startsSeq]
    | cons x xs =>
      simp only [startsSeq, Bool.and_eq_true, decide_eq_true_eq, ih, List.cons_append,
        List.cons.injEq]
      constructor
      · rintro ⟨rfl, b, rfl⟩
        exact ⟨b, rfl, rfl⟩
      · rintro ⟨b, rfl, rfl⟩
        exact ⟨rfl, b, rfl⟩

theorem containsSeq_iff {needle hay : List Char} :
    containsSeq needle hay = true ↔ ∃ a b, hay = a ++ needle ++ b := by
  induction hay with
  | nil =>
    simp only [containsSeq, List.isEmpty_iff]
    constructor
    · intro h; exact ⟨[], [], by simp [h]⟩
    · rintro ⟨a, b, hab⟩
      rcases List.append_eq_nil.mp (List.append_eq_nil.mp hab.symm).1 with ⟨_, h2⟩
      exact h2
  | cons x rest ih =>
    simp only [containsSeq, Bool.or_eq_true, startsSeq_iff, ih]
    constructor
    · rintro (⟨b, hb⟩ | ⟨a, b, hab⟩)
      · exact ⟨[], b, by simp [hb]⟩
      · exact ⟨x :: a, b, by simp [hab]⟩
    · rintro ⟨a, b, hab⟩
      cases a with
      | nil => exact Or.inl ⟨b, by simpa using hab⟩
      | cons a1 as =>
        simp only [List.cons_append, List.cons.injEq] at hab
        exact Or.inr ⟨as, b, hab.2⟩

/-- C2: for every destination key whose open attempt fails, the
acquire-and-use operation (dirty_log_str_file, dirty_log_str_tcp) returns
the open error to the caller and inserts no entry: the cache is unchanged
and the key remains absent, so a subsequent call with the same key performs
another open attempt (the open counter advances again) — the failure is
never cached. -/
theorem C2_open_failure_not_cached :
    (∀ (path msg : List Char) (s : CacheState (List Char)) (e : IoError),
      lookupEntry s.cache path = none →
      s.opens s.openCount = .error e →
      (dirty_log_str_file path msg s).1 = .error e ∧
      ((dirty_log_str_file path msg s).2).cache = s.cache ∧
      lookupEntry ((dirty_log_str_file path msg s).2).cache path = none ∧
      ∀ msg2,
        ((dirty_log_str_file path msg2 (dirty_log_str_file path msg s).2).2).openCount =
          s.openCount + 2) ∧
    (∀ (host : List Char) (port : Nat) (msg : List Char)
        (s : CacheState (List Char × Nat)) (e : IoError),
      lookupEntry s.cache (host, port) = none →
      s.opens s.openCount = .error e →
      (dirty_log_str_tcp host port msg s).1 = .error e ∧
      ((dirty_log_str_tcp host port msg s).2).cache = s.cache ∧
      lookupEntry ((dirty_log_str_tcp host port msg s).2).cache (host, port) = none ∧
      ∀ msg2,
        ((dirty_log_str_tcp host port msg2 (dirty_log_str_tcp host port msg s).2).2).openCount =
          s.openCount + 2) :=
  ⟨fun _ _ _ _ h ho => cacheLog_open_fail_spec h ho,
   fun _ _ _ _ _ h ho => cacheLog_open_fail_spec h ho⟩

/-- C2 witness: a concrete fresh file cache whose open fails with a
concrete error shows the hypotheses are satisfiable and the conclusion
holds there. -/
theorem C2_witness :
    lookupEntry fileFailCache.cache (toL "/w") = none ∧
    fileFailCache.opens fileFailCache.openCount = .error (toL "boom") ∧
    (dirty_log_str_file (toL "/w") (toL "m") fileFailCache).1 = .error (toL "boom") ∧
    ((dirty_log_str_file (toL "/w") (toL "m") fileFailCache).2).cache = fileFailCache.cache ∧
    lookupEntry ((dirty_log_str_file (toL "/w") (toL "m") fileFailCache).2).cache (toL "/w") =
      none ∧
    ((dirty_log_str_file (toL "/w") (toL "m2")
        (dirty_log_str_file (toL "/w") (toL "m") fileFailCache).2).2).openCount =
      fileFailCache.openCount + 2 := by
  have h := C2_open_failure_not_cached.1 (toL "/w") (toL "m") fileFailCache (toL "boom") rfl rfl
  exact ⟨rfl, rfl, h.1, h.2.1, h.2.2.1, h.2.2.2 (toL "m2")⟩

/-- C3: once a handle is in a cache, no operation removes, replaces or
closes it: after any top-level call whatsoever, every previously present
key still maps to a handle with the same identity (same underlying open)
and with its previously written bytes intact; and a call for a key that is
already present performs no open, mutates that same handle in place, and
leaves it in the cache — this holds for every handle script, in particular
for scripts that make the write or the flush fail. -/
theorem C3_handle_never_evicted (uri msg : List Char) (s : ProcState) :
    (∀ key w, lookupEntry s.dirtyFiles.cache key = some w →
      ∃ w2, lookupEntry ((dirty_log_message uri msg s).2).dirtyFiles.cache key = some w2 ∧
        w2.hid = w.hid ∧ ∃ t, w2.written = w.written ++ t) ∧
    (∀ key w, lookupEntry s.dirtyTcp.cache key = some w →
      ∃ w2, lookupEntry ((dirty_log_message uri msg s).2).dirtyTcp.cache key = some w2 ∧
        w2.hid = w.hid ∧ ∃ t, w2.written = w.written ++ t) ∧
    (∀ path w, lookupEntry s.dirtyFiles.cache path = some w →
      ((dirty_log_str_file path msg s.dirtyFiles).2).openCount = s.dirtyFiles.openCount ∧
      lookupEntry ((dirty_log_str_file path msg s.dirtyFiles).2).cache path =
        some (dirty_log_str_writer msg w).2 ∧
      ((dirty_log_str_writer msg w).2).hid = w.hid) := by
  refine ⟨?_, ?_, ?_⟩
  · intro key w h
    rcases dlm_dirtyFiles uri msg s with heq | ⟨path, _, heq⟩
    · rw [heq]
      exact ⟨w, h, rfl, [], by simp⟩
    · rw [heq, dirty_log_str_file_eq]
      exact cacheLog_preserves h
  · intro key w h
    rcases dlm_dirtyTcp uri msg s with heq | ⟨host, port, _, heq⟩
    · rw [heq]
      exact ⟨w, h, rfl, [], by simp⟩
    · rw [heq, dirty_log_str_tcp_eq]
      exact cacheLog_preserves h
  · intro path w h
    rw [dirty_log_str_file_eq, cacheLog_present h]
    exact ⟨rfl, lookup_update_self _ h, dirty_log_str_writer_hid msg w⟩

/-- C3 witness: a state whose file cache holds one handle, and a call on
that same key. -/
theorem C3_witness :
    lookupEntry seededState.dirtyFiles.cache (toL "/k") = some wSeeded ∧
    (∃ w2, lookupEntry
        ((dirty_log_message (toL "/k") (toL "m") seededState).2).dirtyFiles.cache (toL "/k") =
        some w2 ∧ w2.hid = wSeeded.hid ∧ ∃ t, w2.written = wSeeded.written ++ t) := by
  exact ⟨rfl, (C3_handle_never_evicted (toL "/k") (toL "m") seededState).1 (toL "/k") wSeeded rfl⟩

/-- C4: for a destination of shape tcp scheme, then a host part, then a
colon, then a colon-free port part that parses as an unsigned 16-bit
integer, resolution splits at that (last) colon, strips one enclosing pair
of square brackets from the host part if present, and yields the TCP
target with that host and port; in particular the two bracket examples of
the specification resolve as stated. -/
theorem C4_tcp_resolution (host portStr : List Char) (p : Nat)
    (hc : ':' ∉ portStr) (hp : parseU16 portStr = .ok p) :
    resolveDestination (tcpScheme ++ (host ++ ':' :: portStr)) =
      .ok (.tcp (stripBrackets host) p) ∧
    (∀ inner, stripBrackets ('[' :: (inner ++ [']'])) = inner) ∧
    resolveDestination (toL "tcp://[::1]:9999") = .ok (.tcp (toL "::1") 9999) ∧
    resolveDestination (toL "tcp://localhost:9999") = .ok (.tcp (toL "localhost") 9999) := by
  refine ⟨?_, stripBrackets_wrap, by decide, by decide⟩
  rw [resolve_tcp_split host portStr hc, hp]

/-- C4 witness: the bracketed IPv6 example as a concrete instance of the
universally quantified part. -/
theorem C4_witness :
    ':' ∉ toL "9999" ∧ parseU16 (toL "9999") = .ok 9999 ∧
    resolveDestination (tcpScheme ++ (toL "[::1]" ++ ':' :: toL "9999")) =
      .ok (.tcp (stripBrackets (toL "[::1]")) 9999) := by
  exact ⟨by decide, by decide,
    (C4_tcp_resolution (toL "[::1]") (toL "9999") 9999 (by decide) (by decide)).1⟩

/-- C5: the write routine hands exactly the message bytes, then one
newline byte, to the handle and then flushes: on success the handle's
byte stream is extended by exactly the record (message then newline) and
everything is flushed; the first failing operation aborts the routine,
its error is returned unchanged, and no operation is retried (the state
shows each scripted operation consumed exactly once and the data of the
operations before the failure, nothing more). -/
theorem C5_write_routine (msg : List Char) (w : WriterState) :
    (firstFailure w.script = none →
      (dirty_log_str_writer msg w).1 = .ok () ∧
      ((dirty_log_str_writer msg w).2).written = w.written ++ msg ++ ['\n'] ∧
      ((dirty_log_str_writer msg w).2).flushedLen = (w.written ++ msg ++ ['\n']).length ∧
      ((dirty_log_str_writer msg w).2).hid = w.hid ∧
      ((dirty_log_str_writer msg w).2).script = w.script.drop 3) ∧
    (∀ e rest, w.script = .some e :: rest →
      dirty_log_str_writer msg w = (.error e, { w with script := rest })) ∧
    (∀ e rest, w.script = .none :: .some e :: rest →
      dirty_log_str_writer msg w =
        (.error e, { w with written := w.written ++ msg, script := rest })) ∧
    (∀ e rest, w.script = .none :: .none :: .some e :: rest →
      dirty_log_str_writer msg w =
        (.error e, { w with written := w.written ++ msg ++ ['\n'], script := rest })) := by
  obtain ⟨hid, written, fl, scr⟩ := w
  rcases scr with _ | ⟨o1, scr⟩
  · simp [dirty_log_str_writer, wWrite, wFlush, firstFailure]
  rcases o1 with _ | e1
  · rcases scr with _ | ⟨o2, scr⟩
    · simp [dirty_log_str_writer, wWrite, wFlush, firstFailure]
    rcases o2 with _ | e2
    · rcases scr with _ | ⟨o3, scr⟩
      · simp [dirty_log_str_writer, wWrite, wFlush, firstFailure]
      rcases o3 with _ | e3
      · simp [dirty_log_str_writer, wWrite, wFlush, firstFailure]
      · simp [dirty_log_str_writer, wWrite, wFlush, firstFailure]
    · simp [dirty_log_str_writer, wWrite, wFlush, firstFailure]
  · simp [dirty_log_str_writer, wWrite, wFlush, firstFailure]

/-- C5 witness: a fresh always-succeeding handle and a concrete message. -/
theorem C5_witness :
    firstFailure (⟨0, [], 0, []⟩ : WriterState).script = none ∧
    ((dirty_log_str_writer (toL "hi") ⟨0, [], 0, []⟩).1 = .ok () ∧
      ((dirty_log_str_writer (toL "hi") ⟨0, [], 0, []⟩).2).written =
        ([] : List Char) ++ toL "hi" ++ ['\n'] ∧
      ((dirty_log_str_writer (toL "hi") ⟨0, [], 0, []⟩).2).flushedLen =
        (([] : List Char) ++ toL "hi" ++ ['\n']).length ∧
      ((dirty_log_str_writer (toL "hi") ⟨0, [], 0, []⟩).2).hid = 0 ∧
      ((dirty_log_str_writer (toL "hi") ⟨0, [], 0, []⟩).2).script =
        ([] : List (Option IoError)).drop 3) := by
  exact ⟨rfl, (C5_write_routine (toL "hi") ⟨0, [], 0, []⟩).1 rfl⟩

/-- C6: for a tcp-scheme destination, resolution fails when the remainder
has no colon (with the no-colon error) or when the part after the last
colon does not parse as an unsigned 16-bit integer (with the port error);
either resolution failure is fatal and without retry: the top-level call
panics (does not return normally) and leaves the process state exactly as
it was. -/
theorem C6_invalid_destination :
    (∀ rest : List Char, ':' ∉ rest →
      resolveDestination (tcpScheme ++ rest) = .error .noColon) ∧
    (∀ (host portStr : List Char) (e : ParseIntError), ':' ∉ portStr →
      parseU16 portStr = .error e →
      resolveDestination (tcpScheme ++ (host ++ ':' :: portStr)) = .error (.badPort e)) ∧
    (∀ (uri msg : List Char) (s : ProcState) (err : ResolveErr),
      resolveDestination uri = .error err →
      (dirty_log_message uri msg s).1 ≠ .ok ∧ (dirty_log_message uri msg s).2 = s) := by
  refine ⟨?_, ?_, ?_⟩
  · intro rest h
    unfold resolveDestination
    simp [stripPre_append, rsplitOnce_none_of_not_mem h]
  · intro host portStr e hc he
    rw [resolve_tcp_split host portStr hc, he]
  · intro uri msg s err hres
    cases err <;> simp [dirty_log_message, hres]

/-- C6 witness: a tcp uri without any colon in its remainder. -/
theorem C6_witness :
    ':' ∉ toL "nocolon" ∧
    resolveDestination (tcpScheme ++ toL "nocolon") = .error .noColon := by
  exact ⟨by decide, C6_invalid_destination.1 (toL "nocolon") (by decide)⟩

/-- C8 counterexample: the claim says a tcp destination whose host part
contains a colon but is not bracket-enclosed is treated as an invalid
destination; but on the concrete input the host part before the last colon
contains colons, is not bracket-enclosed, and resolution nevertheless
succeeds with that host, so the claim is false. -/
theorem C8_counterexample :
    ':' ∈ toL "::1" ∧
    (stripPre ['['] (toL "::1")).bind (stripSuf ']') = none ∧
    resolveDestination (toL "tcp://::1:9999") = .ok (.tcp (toL "::1") 9999) := by
  decide

/-- C8 amended: resolution never rejects a host part for containing
unbracketted colons; it splits at the last colon and, since the host part
is not enclosed in one pair of square brackets (equivalently, the bracket
strip of the source fails), the colon-containing host part is accepted
verbatim as the host of the TCP target. -/
theorem C8_unbracketed_host_accepted (host portStr : List Char) (p : Nat)
    (hhc : ':' ∈ host) (hc : ':' ∉ portStr)
    (hnb : (stripPre ['['] host).bind (stripSuf ']') = none)
    (hp : parseU16 portStr = .ok p) :
    resolveDestination (tcpScheme ++ (host ++ ':' :: portStr)) = .ok (.tcp host p) ∧
    ((stripPre ['['] host).bind (stripSuf ']') = none ↔
      ∀ inner, host ≠ '[' :: (inner ++ [']'])) := by
  refine ⟨?_, noBrackets_iff⟩
  rw [resolve_tcp_split host portStr hc, hp, stripBrackets_eq_self hnb]

/-- C8 witness: the counterexample input as a concrete instance of the
amended statement. -/
theorem C8_witness :
    ':' ∈ toL "::1" ∧ ':' ∉ toL "9999" ∧
    (stripPre ['['] (toL "::1")).bind (stripSuf ']') = none ∧
    parseU16 (toL "9999") = .ok 9999 ∧
    resolveDestination (tcpScheme ++ (toL "::1" ++ ':' :: toL "9999")) =
      .ok (.tcp (toL "::1") 9999) := by
  exact ⟨by decide, by decide, by decide, by decide,
    (C8_unbracketed_host_accepted (toL "::1") (toL "9999") 9999
      (by decide) (by decide) (by decide) (by decide)).1⟩

/-- C9: the file scheme uri and the bare path resolve to the identical file
key, and hence to the same cache entry: after logging through the scheme
form and then through the bare form from a fresh state, only one open ever
happened and the single shared entry holds both records in order. -/
theorem C9_scheme_stripping :
    resolveDestination (toL "file:///tmp/x") = .ok (.file (toL "/tmp/x")) ∧
    resolveDestination (toL "/tmp/x") = .ok (.file (toL "/tmp/x")) ∧
    ((dirty_log_message (toL "/tmp/x") (toL "b")
        (dirty_log_message (toL "file:///tmp/x") (toL "a") okState).2).2).dirtyFiles.openCount
      = 1 ∧
    lookupEntry ((dirty_log_message (toL "/tmp/x") (toL "b")
        (dirty_log_message (toL "file:///tmp/x") (toL "a") okState).2).2).dirtyFiles.cache
      (toL "/tmp/x") = some ⟨0, toL "a\nb\n", 4, []⟩ := by
  decide

/-- C10: a destination that does not begin with exactly the six characters
of the tcp scheme is always resolved, without any possibility of failure,
to the file target whose key is the string with at most one leading file
scheme removed; in particular the upper-case and single-slash variants are
file targets verbatim. -/
theorem C10_non_tcp_always_file :
    (∀ uri : List Char, (∀ rest, uri ≠ tcpScheme ++ rest) →
      resolveDestination uri = .ok (.file ((stripPre fileScheme uri).getD uri))) ∧
    resolveDestination (toL "TCP://h:1") = .ok (.file (toL "TCP://h:1")) ∧
    resolveDestination (toL "tcp:/h:1") = .ok (.file (toL "tcp:/h:1")) := by
  refine ⟨?_, by decide, by decide⟩
  intro uri h
  unfold resolveDestination
  rw [stripPre_eq_none.mpr h]

/-- C10 witness: the upper-case scheme variant instantiates the
universally quantified part. -/
theorem C10_witness :
    resolveDestination (toL "TCP://h:1") =
      .ok (.file ((stripPre fileScheme (toL "TCP://h:1")).getD (toL "TCP://h:1"))) :=
  C10_non_tcp_always_file.1 (toL "TCP://h:1") (stripPre_eq_none.mp (by decide))

/-- C7 counterexample: the claim says every failure, including a resolution
failure, aborts with a diagnostic carrying the destination string; but on
the concrete no-colon input the call aborts with the fixed message of the
first expect, and the destination string does not occur in that message. -/
theorem C7_counterexample :
    (dirty_log_message (toL "tcp://x") (toL "m") okState).1 = .panicInvalidTcpUri ∧
    panicText (dirty_log_message (toL "tcp://x") (toL "m") okState).1 =
      some (toL "invalid tcp uri") ∧
    containsSeq (toL "tcp://x") (toL "invalid tcp uri") = false := by
  decide

/-- C7 amended: the top-level call returns no error value; no failure is
silently swallowed — with a failed resolution it never returns normally,
and with a successful resolution it returns normally exactly when the
dispatched cache call succeeds, otherwise aborting with a panic whose
message carries the destination string and the I/O error description;
resolution failures abort with the fixed expect diagnostics (which, per
the counterexample, need not mention the destination). -/
theorem C7_failure_surfacing (uri msg : List Char) (s : ProcState) :
    (∀ err, resolveDestination uri = .error err → (dirty_log_message uri msg s).1 ≠ .ok) ∧
    (∀ host port, resolveDestination uri = .ok (.tcp host port) →
      (dirty_log_message uri msg s).1 =
        match (dirty_log_str_tcp host port msg s.dirtyTcp).1 with
        | .ok _ => .ok
        | .error e => .panicIo uri e) ∧
    (∀ path, resolveDestination uri = .ok (.file path) →
      (dirty_log_message uri msg s).1 =
        match (dirty_log_str_file path msg s.dirtyFiles).1 with
        | .ok _ => .ok
        | .error e => .panicIo uri e) ∧
    (∀ u e, (dirty_log_message uri msg s).1 = .panicIo u e →
      u = uri ∧
      (∃ a b, panicText ((dirty_log_message uri msg s).1) = some (a ++ uri ++ b)) ∧
      (∃ a b, panicText ((dirty_log_message uri msg s).1) = some (a ++ e ++ b))) ∧
    (resolveDestination uri = .error .noColon →
      (dirty_log_message uri msg s).1 = .panicInvalidTcpUri ∧
      panicText LogOutcome.panicInvalidTcpUri = some (toL "invalid tcp uri")) ∧
    (∀ pe, resolveDestination uri = .error (.badPort pe) →
      (dirty_log_message uri msg s).1 = .panicInvalidPort pe ∧
      panicText (LogOutcome.panicInvalidPort pe) =
        some (toL "invalid port number: " ++ renderPIE pe)) := by
  refine ⟨?_, ?_, ?_, ?_, ?_, ?_⟩
  · intro err hres
    cases err <;> simp [dirty_log_message, hres]
  · intro host port hres
    rcases hr : (dirty_log_str_tcp host port msg s.dirtyTcp).1 with e | u <;>
      simp [dirty_log_message, hres, hr]
  · intro path hres
    rcases hr : (dirty_log_str_file path msg s.dirtyFiles).1 with e | u <;>
      simp [dirty_log_message, hres, hr]
  · intro u e h
    rcases hres : resolveDestination uri with err | t
    · cases err <;> simp [dirty_log_message, hres] at h
    · cases t with
      | tcp host port =>
        rcases hr : (dirty_log_str_tcp host port msg s.dirtyTcp).1 with e2 | u2
        · simp only [dirty_log_message, hres, hr] at h ⊢
          simp only [LogOutcome.panicIo.injEq] at h
          obtain ⟨hu, he⟩ := h
          subst hu
          subst he
          refine ⟨rfl,
            ⟨toL "failed to log to \x22", toL "\x22: " ++ e2, by simp [panicText]⟩,
            ⟨toL "failed to log to \x22" ++ uri ++ toL "\x22: ", [], by simp [panicText]⟩⟩
        · simp [dirty_log_message, hres, hr] at h
      | file path =>
        rcases hr : (dirty_log_str_file path msg s.dirtyFiles).1 with e2 | u2
        · simp only [dirty_log_message, hres, hr] at h ⊢
          simp only [LogOutcome.panicIo.injEq] at h
          obtain ⟨hu, he⟩ := h
          subst hu
          subst he
          refine ⟨rfl,
            ⟨toL "failed to log to \x22", toL "\x22: " ++ e2, by simp [panicText]⟩,
            ⟨toL "failed to log to \x22" ++ uri ++ toL "\x22: ", [], by simp [panicText]⟩⟩
        · simp [dirty_log_message, hres, hr] at h
  · intro hres
    simp [dirty_log_message, hres, panicText]
  · intro pe hres
    simp [dirty_log_message, hres, panicText]

/-- C7 witness: a concrete file destination on the fresh state instantiates
the file-dispatch clause. -/
theorem C7_witness :
    resolveDestination (toL "/w7") = .ok (.file (toL "/w7")) ∧
    (dirty_log_message (toL "/w7") (toL "m") okState).1 =
      match (dirty_log_str_file (toL "/w7") (toL "m") okState.dirtyFiles).1 with
      | .ok _ => .ok
      | .error e => .panicIo (toL "/w7") e := by
  exact ⟨by decide,
    (C7_failure_surfacing (toL "/w7") (toL "m") okState).2.2.1 (toL "/w7") (by decide)⟩
